import Mathlib

/-!
Shallow embedding of the RunForm proof-of-concept gait-metrics engine.

Numbers are modelled as exact rationals (`ℚ`); JavaScript's `Math.round`
becomes `⌊x + 1/2⌋`, which agrees with it on every finite value.  Each
definition mirrors one function of the source: the calibration sampler of
`App.tsx` (`handleCalibrationFrame`), the metrics session of
`src/pose/metrics.ts` (`update` / `getSnapshot`), the session-summary
engine (`computeSummary` / `generateInsights`), the persisted history
(`saveSessions` / `addSession` / `updateSessionNote` / `deleteSession`),
the frame-quality evaluator (`computeFrameQuality`) and the
pause/resume/stop duration accounting of `App.tsx`.
-/

/-- TypeScript `mean`: sum of the list divided by its length, `0` on `[]`. -/
def mean (l : List ℚ) : ℚ := if l.length = 0 then 0 else l.sum / l.length

/-- JavaScript `Math.round` on an exact rational: floor of `x + 1/2`
(halves round toward positive infinity, as in JS). -/
def jsRound (x : ℚ) : ℤ := ⌊x + 1/2⌋

/-- Rounding to one decimal: `Math.round(x * 10) / 10`. -/
def round1 (x : ℚ) : ℚ := (jsRound (x * 10) : ℚ) / 10

/-- Rounding to three decimals: `Math.round(x * 1000) / 1000`. -/
def round3 (x : ℚ) : ℚ := (jsRound (x * 1000) : ℚ) / 1000

/-- JavaScript `Math.max(...arr)` for the nonempty lists the source feeds it
(the `[]` case is never reached there; we return `0`). -/
def listMax : List ℚ → ℚ
  | [] => 0
  | x :: xs => xs.foldl max x

/-- JavaScript `Math.min(...arr)` for the nonempty lists the source feeds it. -/
def listMin : List ℚ → ℚ
  | [] => 0
  | x :: xs => xs.foldl min x

/-- Sample variance with the `n - 1` denominator, the square of the source's
`stddev`; `0` when fewer than two values. -/
def sampleVar (l : List ℚ) : ℚ :=
  if l.length < 2 then 0
  else ((l.map (fun x => (x - mean l) ^ 2)).sum) / ((l.length : ℚ) - 1)

/-- Exact value of `Math.round(10 * Real.sqrt q)` for `q ≥ 0`, computed with
natural-number square roots so that it stays executable; the lemma
`sqrtRound10_eq_floor` proves it equal to `⌊10 * Real.sqrt q + 1/2⌋`. -/
def sqrtRound10 (q : ℚ) : ℕ := (Nat.sqrt (Int.toNat ⌊400 * q⌋) + 1) / 2

/-- The source's `Math.round(stddev(arr) * 10) / 10`: the sample standard
deviation rounded to one decimal, `0` when fewer than two values. -/
def stddevRound1 (l : List ℚ) : ℚ :=
  if l.length < 2 then 0 else (sqrtRound10 (sampleVar l) : ℚ) / 10

/-! ## Calibration sampler (`App.tsx`, `handleCalibrationFrame`) -/

/-- Session phase of the lifecycle controller. -/
inductive Phase
  | idle
  | calibrating
  | tracking
  deriving DecidableEq, Repr

/-- The calibrated reference position: means of mid-hip and mid-shoulder Y. -/
structure Baseline where
  hipY : ℚ
  torsoY : ℚ
  deriving DecidableEq, Repr

/-- Per-frame calibration input delivered by the pose runner. -/
structure CalibFrame where
  midHipY : Option ℚ
  midShoulderY : Option ℚ
  isGood : Bool
  deriving DecidableEq, Repr

/-- The mutable refs of `App.tsx` that `handleCalibrationFrame` touches. -/
structure CalibState where
  phase : Phase
  goodTimeAccumulated : ℚ
  lastGoodTimestamp : ℚ
  samplesMidHipY : List ℚ
  samplesMidShoulderY : List ℚ
  baseline : Option Baseline
  deriving DecidableEq, Repr

/-- CALIBRATION_DURATION_MS of `App.tsx`. -/
def CALIBRATION_DURATION_MS : ℚ := 5000

/-- Translation of `handleCalibrationFrame` (App.tsx lines 233-294), keeping
its control flow: early return unless calibrating, early return on a bad
or incomplete frame, the `lastGoodTimestamp === 0` sentinel for "no previous
good frame", sample pushes, and finalization once the accumulator reaches
the threshold (baseline from the sample means, state cleared, phase set to
tracking).  The throttled UI update of `goodTimeMs` is display-only and not
part of this state. -/
def handleCalibrationFrame (s : CalibState) (data : CalibFrame) (timestampMs : ℚ) :
    CalibState :=
  if s.phase ≠ Phase.calibrating then s
  else
    match data.isGood, data.midHipY, data.midShoulderY with
    | true, some hip, some sh =>
      let s1 :=
        if s.lastGoodTimestamp = 0 then { s with lastGoodTimestamp := timestampMs }
        else
          { s with
            goodTimeAccumulated :=
              s.goodTimeAccumulated + (timestampMs - s.lastGoodTimestamp),
            lastGoodTimestamp := timestampMs }
      let s2 :=
        { s1 with
          samplesMidHipY := s1.samplesMidHipY ++ [hip],
          samplesMidShoulderY := s1.samplesMidShoulderY ++ [sh] }
      if s2.goodTimeAccumulated ≥ CALIBRATION_DURATION_MS then
        { phase := Phase.tracking,
          goodTimeAccumulated := 0,
          lastGoodTimestamp := 0,
          samplesMidHipY := [],
          samplesMidShoulderY := [],
          baseline :=
            some
              { hipY := mean s2.samplesMidHipY, torsoY := mean s2.samplesMidShoulderY } }
      else s2
    | _, _, _ => s

/-- The calibration state right after `handleStart` resets everything. -/
def initCalibState : CalibState :=
  { phase := Phase.calibrating,
    goodTimeAccumulated := 0,
    lastGoodTimestamp := 0,
    samplesMidHipY := [],
    samplesMidShoulderY := [],
    baseline := none }

/-- Feeding a sequence of (frame, timestamp) pairs through the sampler. -/
def processCalibration (s : CalibState) (l : List (CalibFrame × ℚ)) : CalibState :=
  l.foldl (fun st p => handleCalibrationFrame st p.1 p.2) s

/-- A frame takes the good path of `handleCalibrationFrame`: `isGood` with
both mid values present. -/
def goodFrame (f : CalibFrame) : Bool :=
  f.isGood && f.midHipY.isSome && f.midShoulderY.isSome

/-- Timestamps of the good frames of a sequence, in order. -/
def goodTimes (l : List (CalibFrame × ℚ)) : List ℚ :=
  (l.filter (fun p => goodFrame p.1)).map (fun p => p.2)

/-- The `midHipY` values of the good frames of a sequence, in order. -/
def goodHips (l : List (CalibFrame × ℚ)) : List ℚ :=
  l.filterMap (fun p => if goodFrame p.1 then p.1.midHipY else none)

/-- The `midShoulderY` values of the good frames of a sequence, in order. -/
def goodShoulders (l : List (CalibFrame × ℚ)) : List ℚ :=
  l.filterMap (fun p => if goodFrame p.1 then p.1.midShoulderY else none)

/-- Sum of the time deltas between consecutive entries of a list
(telescopes to last minus first on a nonempty list). -/
def deltaSum : List ℚ → ℚ
  | [] => 0
  | [_] => 0
  | a :: b :: rest => (b - a) + deltaSum (b :: rest)

/-- Last element of a list of timestamps, `0` when there is none (matching
the `lastGoodTimestampRef` sentinel value). -/
def lastTime : List ℚ → ℚ
  | [] => 0
  | [x] => x
  | _ :: x :: rest => lastTime (x :: rest)

/-- The calibration state the spec predicts after a frame history `h` during
which no finalization has happened: accumulator = sum of deltas between
consecutive good frames, last-good timestamp = last good time (0 if none),
buffers = the good frames' mid values. -/
def calibStateOf (h : List (CalibFrame × ℚ)) : CalibState :=
  { phase := Phase.calibrating,
    goodTimeAccumulated := deltaSum (goodTimes h),
    lastGoodTimestamp := lastTime (goodTimes h),
    samplesMidHipY := goodHips h,
    samplesMidShoulderY := goodShoulders h,
    baseline := none }

/-! ## Gait metrics session (`src/pose/metrics.ts`, the version `App.tsx`
imports: 5-sample smoothing, amplitude threshold 0.012, cooldown 280 ms) -/

/-- Which side's ankle drives the step signal. -/
inductive Side
  | L
  | R
  deriving DecidableEq, Repr

/-- Trend of the smoothed step signal. -/
inductive Direction
  | up
  | down
  deriving DecidableEq, Repr

/-- The private fields of class `MetricsSession`. -/
structure MetricsState where
  stepSignalBuffer : List ℚ
  prevSmoothedY : ℚ
  direction : Option Direction
  lastPeakY : ℚ
  lastStepTime : ℚ
  stepTimestamps : List ℚ
  deviations : List (ℚ × ℚ)
  cadenceSamples : List (ℚ × ℚ)
  lastCadenceSampleTime : ℚ
  currentAnkle : Side
  deriving DecidableEq, Repr

def SMOOTH_SAMPLES : ℕ := 5

def STEP_AMPLITUDE_THRESHOLD : ℚ := 0.012

def STEP_COOLDOWN_MS : ℚ := 280

def STEP_WINDOW_MS : ℚ := 10000

def VO_WINDOW_MS : ℚ := 5000

def CADENCE_SAMPLE_INTERVAL_MS : ℚ := 500

def CADENCE_SAMPLE_WINDOW_MS : ℚ := 30000

def CADENCE_FACTOR : ℚ := 6

/-- The snapshot record returned by `getSnapshot`. -/
structure MetricsSnapshot where
  cadence : ℚ
  voProxy : ℚ
  stability : ℚ
  stepsLast10s : ℕ
  currentAnkle : Side
  deriving DecidableEq, Repr

/-- Translation of `MetricsSession.update`: signal selection by visibility,
push into the 5-sample smoothing buffer (shift when over capacity), the
direction / peak / step-detection branch on the sign of `dy`, the
10-second step window filter, the 5-second deviation window, and the
throttled 30-second cadence-sample window. -/
def MetricsSession.update (s : MetricsState) (ankleY kneeY ankleVis kneeVis : ℚ)
    (ankleUsed : Side) (midHipY baselineHipY timestampMs : ℚ) : MetricsState :=
  let stepY := if ankleVis ≥ kneeVis then ankleY else kneeY
  let buf0 := s.stepSignalBuffer ++ [stepY]
  let buf := if buf0.length > SMOOTH_SAMPLES then buf0.drop 1 else buf0
  let smoothedY := mean buf
  let dy := smoothedY - s.prevSmoothedY
  let branch :
      Option Direction × ℚ × List ℚ × ℚ :=
    if dy > 0 then (some Direction.up, smoothedY, s.stepTimestamps, s.lastStepTime)
    else if dy < 0 then
      if s.direction = some Direction.up ∧
          s.lastPeakY - smoothedY ≥ STEP_AMPLITUDE_THRESHOLD ∧
          timestampMs - s.lastStepTime ≥ STEP_COOLDOWN_MS then
        (some Direction.down, s.lastPeakY, s.stepTimestamps ++ [timestampMs], timestampMs)
      else (some Direction.down, s.lastPeakY, s.stepTimestamps, s.lastStepTime)
    else (s.direction, s.lastPeakY, s.stepTimestamps, s.lastStepTime)
  let stepTimestamps2 := branch.2.2.1.filter (fun t => t ≥ timestampMs - STEP_WINDOW_MS)
  let deviations2 :=
    (s.deviations ++ [(timestampMs, midHipY - baselineHipY)]).filter
      (fun d => d.1 ≥ timestampMs - VO_WINDOW_MS)
  let doSample := timestampMs - s.lastCadenceSampleTime ≥ CADENCE_SAMPLE_INTERVAL_MS
  let cadenceSamples2 :=
    if doSample then
      let stepsIn10s :=
        (stepTimestamps2.filter (fun t => t ≥ timestampMs - STEP_WINDOW_MS)).length
      (s.cadenceSamples ++ [(timestampMs, (stepsIn10s : ℚ) * CADENCE_FACTOR)]).filter
        (fun p => p.1 ≥ timestampMs - CADENCE_SAMPLE_WINDOW_MS)
    else s.cadenceSamples
  { stepSignalBuffer := buf,
    prevSmoothedY := smoothedY,
    direction := branch.1,
    lastPeakY := branch.2.1,
    lastStepTime := branch.2.2.2,
    stepTimestamps := stepTimestamps2,
    deviations := deviations2,
    cadenceSamples := cadenceSamples2,
    lastCadenceSampleTime := if doSample then timestampMs else s.lastCadenceSampleTime,
    currentAnkle := ankleUsed }

/-- Translation of `MetricsSession.getSnapshot`: pure read over the windows,
with cadence and stability rounded to one decimal and the VO proxy to
three decimals. -/
def MetricsSession.getSnapshot (s : MetricsState) (timestampMs : ℚ) : MetricsSnapshot :=
  let stepsIn10s :=
    (s.stepTimestamps.filter (fun t => t ≥ timestampMs - STEP_WINDOW_MS)).length
  let cadence := (stepsIn10s : ℚ) * CADENCE_FACTOR
  let devs :=
    (s.deviations.filter (fun d => d.1 ≥ timestampMs - VO_WINDOW_MS)).map (fun d => d.2)
  let voProxy := if devs.length < 2 then 0 else listMax devs - listMin devs
  let cadenceValues :=
    (s.cadenceSamples.filter (fun p => p.1 ≥ timestampMs - CADENCE_SAMPLE_WINDOW_MS)).map
      (fun p => p.2)
  { cadence := round1 cadence,
    voProxy := round3 voProxy,
    stability := stddevRound1 cadenceValues,
    stepsLast10s := stepsIn10s,
    currentAnkle := s.currentAnkle }

/-- The field initializers of a freshly constructed `MetricsSession`. -/
def MetricsSession.init : MetricsState :=
  { stepSignalBuffer := [],
    prevSmoothedY := 0,
    direction := none,
    lastPeakY := 0,
    lastStepTime := 0,
    stepTimestamps := [],
    deviations := [],
    cadenceSamples := [],
    lastCadenceSampleTime := 0,
    currentAnkle := Side.L }

/-- One `update` call's arguments. -/
structure UpdateArgs where
  ankleY : ℚ
  kneeY : ℚ
  ankleVis : ℚ
  kneeVis : ℚ
  ankleUsed : Side
  midHipY : ℚ
  baselineHipY : ℚ
  timestampMs : ℚ
  deriving DecidableEq, Repr

/-- Feeding a sequence of `update` calls through a metrics session. -/
def processUpdates (s : MetricsState) (l : List UpdateArgs) : MetricsState :=
  l.foldl
    (fun st a =>
      MetricsSession.update st a.ankleY a.kneeY a.ankleVis a.kneeVis a.ankleUsed
        a.midHipY a.baselineHipY a.timestampMs)
    s

/-! ## Session summary engine (`sessionSummary.ts`) -/

/-- One periodic tick's sample. -/
structure SessionSample where
  t : ℚ
  cadence : ℚ
  voProxy : ℚ
  quality : ℚ
  deriving DecidableEq, Repr

/-- The reliability classification of a session. -/
inductive Reliability
  | High
  | Medium
  | Low
  deriving DecidableEq, Repr

/-- The scalar part of a `SessionSummary` (the fields `computeSummary`
returns; id, date, insights and note are attached later). -/
structure SummaryBase where
  durationSec : ℚ
  totalDurationSec : ℚ
  activeDurationSec : ℚ
  cadenceAvg : ℚ
  cadenceMin : ℚ
  cadenceMax : ℚ
  stabilityStdDev : ℚ
  voMedian : ℚ
  voPeak : ℚ
  qualityAvg : ℚ
  qualityMin : ℚ
  reliability : Reliability
  deriving DecidableEq, Repr

/-- Insertion into a list sorted ascending. -/
def insertSorted (x : ℚ) : List ℚ → List ℚ
  | [] => [x]
  | y :: ys => if x ≤ y then x :: y :: ys else y :: insertSorted x ys

/-- JavaScript `[...arr].sort((a, b) => a - b)`: ascending numeric sort. -/
def sortAsc (l : List ℚ) : List ℚ := l.foldr insertSorted []

/-- TypeScript `median`: middle element of the ascending sort, the mean of
the two middle ones on even length, `0` on `[]`. -/
def median (l : List ℚ) : ℚ :=
  if l.length = 0 then 0
  else
    let sorted := sortAsc l
    let mid := sorted.length / 2
    if sorted.length % 2 = 0 then (sorted.getD (mid - 1) 0 + sorted.getD mid 0) / 2
    else sorted.getD mid 0

/-- TypeScript `percentile`: ascending sort indexed at
`min (length - 1) ⌊p/100 * length⌋`, `0` on `[]`. -/
def percentile (l : List ℚ) (p : ℚ) : ℚ :=
  if l.length = 0 then 0
  else
    let sorted := sortAsc l
    sorted.getD (min (sorted.length - 1) (Int.toNat ⌊p / 100 * (sorted.length : ℚ)⌋)) 0

/-- Translation of `computeSummary`: negative values are filtered out per
series, empty series default to `0`, and the reliability decision tree
checks High before Medium.  The unused `startTimeMs` / `endTimeMs`
parameters of the source are kept. -/
def computeSummary (samples : List SessionSample) (_startTimeMs _endTimeMs : ℚ)
    (totalDurationSec activeDurationSec : ℚ) : SummaryBase :=
  let cadenceValues := (samples.map (fun s => s.cadence)).filter (fun v => v ≥ 0)
  let voValues := (samples.map (fun s => s.voProxy)).filter (fun v => v ≥ 0)
  let qualityValues := (samples.map (fun s => s.quality)).filter (fun v => v ≥ 0)
  let cadenceAvg := if cadenceValues.length ≠ 0 then round1 (mean cadenceValues) else 0
  let cadenceMin := if cadenceValues.length > 0 then round1 (listMin cadenceValues) else 0
  let cadenceMax := if cadenceValues.length > 0 then round1 (listMax cadenceValues) else 0
  let stabilityStdDev :=
    if cadenceValues.length ≥ 2 then stddevRound1 cadenceValues else 0
  let voMedian := if voValues.length > 0 then round3 (median voValues) else 0
  let voPeak := if voValues.length > 0 then round3 (listMax voValues) else 0
  let qualityAvg := if qualityValues.length ≠ 0 then round1 (mean qualityValues) else 0
  let qualityMin := if qualityValues.length > 0 then round1 (listMin qualityValues) else 0
  let reliability :=
    if qualityAvg ≥ 75 ∧ qualityMin ≥ 55 then Reliability.High
    else if qualityAvg ≥ 60 then Reliability.Medium
    else Reliability.Low
  { durationSec := activeDurationSec,
    totalDurationSec := totalDurationSec,
    activeDurationSec := activeDurationSec,
    cadenceAvg := cadenceAvg,
    cadenceMin := cadenceMin,
    cadenceMax := cadenceMax,
    stabilityStdDev := stabilityStdDev,
    voMedian := voMedian,
    voPeak := voPeak,
    qualityAvg := qualityAvg,
    qualityMin := qualityMin,
    reliability := reliability }

/-- The generic encouragement filler line of `generateInsights`. -/
def fillerLine : String :=
  "God base. Gem denne som reference og se om du kan gøre den endnu mere stabil næste gang."

/-- The vertical-movement insight line. -/
def voHighLine : String :=
  "Der var en del vertikal bevægelse. Prøv at holde overkroppen lidt mere rolig."

/-- The `voHigh` flag of `generateInsights`: a nonempty VO series whose
median field exceeds its 70th percentile. -/
def voHigh (s : SummaryBase) (voValues : List ℚ) : Bool :=
  voValues.length > 0 &&
    s.voMedian > (if voValues.length > 0 then percentile voValues 70 else 0)

/-- The lines `generateInsights` pushes before the filler, in push order.
Each push condition reads only `s` and `voValues`, never the lines built so
far, so the sequence of conditional pushes is this concatenation. -/
def insightRuleLines (s : SummaryBase) (voValues : List ℚ) : List String :=
  (if s.reliability = Reliability.Low then
      ["Målingen var lidt usikker. Næste gang: mere lys og hele kroppen i frame."]
    else []) ++
  (if s.stabilityStdDev ≤ 3 ∧ s.cadenceAvg > 0 then
      ["Du holdt en meget jævn rytme."]
    else []) ++
  (if s.stabilityStdDev > 6 ∧ s.cadenceAvg > 0 then
      ["Din rytme svingede en del. Prøv at finde en mere stabil cadence."]
    else []) ++
  (if s.cadenceAvg > 0 ∧ s.cadenceAvg < 155 then
      ["Du løb med relativt lav cadence. Du kan eksperimentere med lidt kortere skridt."]
    else []) ++
  (if s.cadenceAvg > 175 then
      ["Du løb med relativt høj cadence. Godt hvis det føles afslappet og stabilt."]
    else []) ++
  (if voHigh s voValues then [voHighLine] else [])

/-- Translation of `generateInsights`: the conditional pushes, then the
filler line under the source's exact condition
`(lines.length === 0 || (lines.length < 4 && !voHigh)) && lines.length < 4`,
then truncation to the first four lines. -/
def generateInsights (s : SummaryBase) (voValues : List ℚ) : List String :=
  let lines := insightRuleLines s voValues
  let lines2 :=
    if (lines.length = 0 ∨ (lines.length < 4 ∧ ¬(voHigh s voValues = true))) ∧
        lines.length < 4 then
      lines ++ [fillerLine]
    else lines
  lines2.take 4

/-! ## Persisted session history (`sessionSummary.ts`, storage section) -/

/-- A persisted session record: the generated id, the scalar summary, the
insight lines and the user note (the other display fields do not affect the
history operations). -/
structure SessionRecord where
  id : String
  base : SummaryBase
  insights : List String
  note : String
  deriving DecidableEq, Repr

def MAX_SESSIONS : ℕ := 30

/-- Translation of `saveSessions`: the whole collection is rewritten,
trimmed to the first `MAX_SESSIONS` entries. -/
def saveSessions (sessions : List SessionRecord) : List SessionRecord :=
  sessions.take MAX_SESSIONS

/-- Translation of `addSession` acting on the stored history: the new record
(with its freshly generated id and the trimmed note) is unshifted to the
front and the collection saved. -/
def addSession (store : List SessionRecord) (base : SummaryBase)
    (insights : List String) (freshId : String) (note : String) :
    List SessionRecord :=
  saveSessions ({ id := freshId, base := base, insights := insights, note := note.trim } :: store)

/-- Translation of `updateSessionNote`: if a record with the id exists, its
note is replaced (trimmed) and the collection saved; otherwise a no-op. -/
def updateSessionNote (store : List SessionRecord) (id : String) (note : String) :
    List SessionRecord :=
  match store.findIdx? (fun s => s.id = id) with
  | some i => saveSessions (store.modify (fun s => { s with note := note.trim }) i)
  | none => store

/-- Translation of `deleteSession`: the record with the id is filtered out
and the collection saved. -/
def deleteSession (store : List SessionRecord) (id : String) : List SessionRecord :=
  saveSessions (store.filter (fun s => s.id ≠ id))

/-! ## Frame quality evaluator (`src/pose/frameQuality.ts`) -/

/-- One pose landmark: normalized position and optional visibility score
(MediaPipe may omit the field; the source then substitutes 0). -/
structure Landmark where
  x : ℚ
  y : ℚ
  visibility : Option ℚ
  deriving DecidableEq, Repr

def NOSE : ℕ := 0

def LEFT_SHOULDER : ℕ := 11

def RIGHT_SHOULDER : ℕ := 12

def LEFT_HIP : ℕ := 23

def RIGHT_HIP : ℕ := 24

def LEFT_KNEE : ℕ := 25

def RIGHT_KNEE : ℕ := 26

def LEFT_ANKLE : ℕ := 27

def RIGHT_ANKLE : ℕ := 28

def KEY_LANDMARK_INDICES : List ℕ :=
  [NOSE, LEFT_SHOULDER, RIGHT_SHOULDER, LEFT_HIP, RIGHT_HIP, LEFT_KNEE, RIGHT_KNEE,
    LEFT_ANKLE, RIGHT_ANKLE]

def LEFT_KEY_INDICES : List ℕ := [LEFT_SHOULDER, LEFT_HIP, LEFT_KNEE, LEFT_ANKLE]

def RIGHT_KEY_INDICES : List ℕ := [RIGHT_SHOULDER, RIGHT_HIP, RIGHT_KNEE, RIGHT_ANKLE]

/-- Translation of `getVisibility`: the landmark's visibility, `0` when the
index or the field is missing. -/
def getVisibility (landmarks : List Landmark) (index : ℕ) : ℚ :=
  match landmarks.get? index with
  | some lm => lm.visibility.getD 0
  | none => 0

/-- Translation of `avgVisibility`. -/
def avgVisibility (landmarks : List Landmark) (indices : List ℕ) : ℚ :=
  if landmarks.length = 0 then 0
  else if indices.length = 0 then 0
  else ((indices.map (getVisibility landmarks)).sum) / (indices.length : ℚ)

/-- Translation of `computeFrameQuality`: average key-joint visibility, the
+0.15 full-body bonus, the -0.10 symmetry penalty, times 100, then
`Math.max(0, Math.min(100, Math.round(raw)))`. -/
def computeFrameQuality (landmarks : List Landmark) : ℤ :=
  if landmarks.length = 0 then 0
  else
    let visibilityScore :=
      ((KEY_LANDMARK_INDICES.map (getVisibility landmarks)).sum) /
        (KEY_LANDMARK_INDICES.length : ℚ)
    let fullBodyBonus : ℚ :=
      if getVisibility landmarks NOSE > 0.6 ∧ getVisibility landmarks LEFT_ANKLE > 0.6 ∧
          getVisibility landmarks RIGHT_ANKLE > 0.6 then 0.15
      else 0
    let symmetryPenalty : ℚ :=
      if |avgVisibility landmarks LEFT_KEY_INDICES -
            avgVisibility landmarks RIGHT_KEY_INDICES| > 0.35 then -0.1
      else 0
    max 0 (min 100 (jsRound ((visibilityScore + fullBodyBonus + symmetryPenalty) * 100)))

/-- Modelled from the spec's wording of the same score, for comparison with
the source: "multiply combined value by 100, clamp to [0,100], round to
nearest integer" clamps before rounding where the source rounds before
clamping. -/
def specFrameQuality (landmarks : List Landmark) : ℤ :=
  if landmarks.length = 0 then 0
  else
    let visibilityScore :=
      ((KEY_LANDMARK_INDICES.map (getVisibility landmarks)).sum) /
        (KEY_LANDMARK_INDICES.length : ℚ)
    let fullBodyBonus : ℚ :=
      if getVisibility landmarks NOSE > 0.6 ∧ getVisibility landmarks LEFT_ANKLE > 0.6 ∧
          getVisibility landmarks RIGHT_ANKLE > 0.6 then 0.15
      else 0
    let symmetryPenalty : ℚ :=
      if |avgVisibility landmarks LEFT_KEY_INDICES -
            avgVisibility landmarks RIGHT_KEY_INDICES| > 0.35 then -0.1
      else 0
    jsRound (max 0 (min 100 ((visibilityScore + fullBodyBonus + symmetryPenalty) * 100)))

/-! ## Pause / resume / stop duration accounting (`App.tsx`) -/

/-- The timing refs of `App.tsx` that pause / resume / stop read and write. -/
structure DurState where
  sessionStartTime : ℚ
  activeStartMs : ℚ
  activeAccumMs : ℚ
  paused : Bool
  deriving DecidableEq, Repr

/-- Translation of `handlePause`: the elapsed tracking time is added to the
accumulator and the paused flag set. -/
def handlePause (s : DurState) (now : ℚ) : DurState :=
  { s with activeAccumMs := s.activeAccumMs + (now - s.activeStartMs), paused := true }

/-- Translation of `handleResume`: the active timer restarts from now. -/
def handleResume (s : DurState) (now : ℚ) : DurState :=
  { s with activeStartMs := now, paused := false }

/-- The duration accounting of `handleStop`:
(totalDurationSec, activeDurationSec), both `Math.round`ed from
milliseconds. -/
def stopDurations (s : DurState) (endTime : ℚ) : ℤ × ℤ :=
  (jsRound ((endTime - s.sessionStartTime) / 1000),
    jsRound ((s.activeAccumMs + (if s.paused then 0 else endTime - s.activeStartMs)) / 1000))

/-- The timing state right after calibration finalizes at time `now` for a
session started at `sessionStart` (tracking begins, accumulator cleared). -/
def startTracking (sessionStart now : ℚ) : DurState :=
  { sessionStartTime := sessionStart, activeStartMs := now, activeAccumMs := 0,
    paused := false }

/-! ## Concrete test fixtures (inputs used by witnesses and counterexamples) -/

/-- An all-zero summary record with Low reliability. -/
def sampleBase : SummaryBase :=
  { durationSec := 0, totalDurationSec := 0, activeDurationSec := 0, cadenceAvg := 0,
    cadenceMin := 0, cadenceMax := 0, stabilityStdDev := 0, voMedian := 0, voPeak := 0,
    qualityAvg := 0, qualityMin := 0, reliability := Reliability.Low }

/-- A stored session used to build a full 30-entry history. -/
def sampleRecord : SessionRecord := { id := "s0", base := sampleBase, insights := [], note := "" }

/-- A summary on which only the vertical-movement insight rule fires:
medium reliability, steady-but-not-flat rhythm, mid-range cadence, and a
`voMedian` above the 70th percentile of the fixture VO series `[1, 2, 3, 3]`. -/
def c6Summary : SummaryBase :=
  { durationSec := 0, totalDurationSec := 0, activeDurationSec := 0, cadenceAvg := 160,
    cadenceMin := 0, cadenceMax := 0, stabilityStdDev := 5, voMedian := 4, voPeak := 0,
    qualityAvg := 70, qualityMin := 70, reliability := Reliability.Medium }

/-- A three-frame calibration run: two good frames 1000 ms apart with one
bad frame between them. -/
def demoCalibFrames : List (CalibFrame × ℚ) :=
  [(⟨some 1, some 2, true⟩, 1000), (⟨none, none, false⟩, 1500), (⟨some 3, some 4, true⟩, 2000)]

/-- A three-frame tracking run whose signal rises then falls far enough to
record one step (at t = 1600). -/
def demoRun : List UpdateArgs :=
  [{ ankleY := 0, kneeY := 0, ankleVis := 1, kneeVis := 0, ankleUsed := Side.L,
      midHipY := 0, baselineHipY := 0, timestampMs := 1000 },
    { ankleY := 1/2, kneeY := 0, ankleVis := 1, kneeVis := 0, ankleUsed := Side.L,
      midHipY := 0, baselineHipY := 0, timestampMs := 1300 },
    { ankleY := 0, kneeY := 0, ankleVis := 1, kneeVis := 0, ankleUsed := Side.L,
      midHipY := 0, baselineHipY := 0, timestampMs := 1600 }]

/-! ## Claim C7: pause / resume / stop duration accounting -/

/-- C7.  Pause adds the elapsed tracking time to the accumulator and freezes
accrual; resume restarts the active timer from the current time; stop
reports the paused-aware active total and the wall-clock total since
session start; and the spec's scenario (start tracking at 0, pause at 10 s,
resume at 15 s, stop at 20 s) yields activeDurationSec = 15 and
totalDurationSec = 20. -/
theorem pause_resume_stop_durations :
    (∀ (s : DurState) (now : ℚ),
      (handlePause s now).activeAccumMs = s.activeAccumMs + (now - s.activeStartMs) ∧
      (handlePause s now).paused = true ∧
      (handlePause s now).activeStartMs = s.activeStartMs ∧
      (handlePause s now).sessionStartTime = s.sessionStartTime ∧
      (handleResume s now).activeStartMs = now ∧
      (handleResume s now).paused = false ∧
      (handleResume s now).activeAccumMs = s.activeAccumMs) ∧
    (∀ (s : DurState) (endTime : ℚ),
      stopDurations s endTime =
        (jsRound ((endTime - s.sessionStartTime) / 1000),
          jsRound
            ((s.activeAccumMs + (if s.paused then 0 else endTime - s.activeStartMs)) /
              1000))) ∧
    stopDurations (handleResume (handlePause (startTracking 0 0) 10000) 15000) 20000 =
      (20, 15) := by
  refine ⟨fun s now => ⟨rfl, rfl, rfl, rfl, rfl, rfl, rfl⟩, fun s endTime => rfl, ?_⟩
  norm_num [stopDurations, handleResume, handlePause, startTracking, jsRound]

/-! ## Claim C8: the persisted history is capped at 30 entries -/

/-- C8.  Every history operation leaves at most 30 entries; adding prepends
the new record; and adding to a full 30-entry history keeps the new record
plus the first 29 old ones, evicting the last (index 30 of the unshifted
list, the oldest). -/
theorem history_cap (store : List SessionRecord) (h : store.length ≤ 30)
    (base : SummaryBase) (insights : List String) (freshId note id : String) :
    (addSession store base insights freshId note).length ≤ 30 ∧
    (updateSessionNote store id note).length ≤ 30 ∧
    (deleteSession store id).length ≤ 30 ∧
    (addSession store base insights freshId note).head? =
      some { id := freshId, base := base, insights := insights, note := note.trim } ∧
    (store.length = 30 →
      addSession store base insights freshId note =
        { id := freshId, base := base, insights := insights, note := note.trim } ::
          store.take 29 ∧
      (addSession store base insights freshId note).length = 30) := by
  refine ⟨?_, ?_, ?_, ?_, fun hfull => ⟨?_, ?_⟩⟩
  · simp [addSession, saveSessions, MAX_SESSIONS]
  · unfold updateSessionNote
    cases store.findIdx? (fun s => s.id = id) with
    | none => simpa using h
    | some i => simp [saveSessions, MAX_SESSIONS]
  · simp [deleteSession, saveSessions, MAX_SESSIONS]
  · simp [addSession, saveSessions, MAX_SESSIONS, List.take_cons]
  · simp [addSession, saveSessions, MAX_SESSIONS, List.take_cons]
  · simp [addSession, saveSessions, MAX_SESSIONS, hfull]

/-- Witness for C8 at a concrete full history of 30 records. -/
theorem history_cap_witness :
    (List.replicate 30 sampleRecord).length ≤ 30 ∧
    (List.replicate 30 sampleRecord).length = 30 ∧
    addSession (List.replicate 30 sampleRecord) sampleBase [] "fresh" " hi " =
      { id := "fresh", base := sampleBase, insights := [], note := " hi ".trim } ::
        (List.replicate 30 sampleRecord).take 29 ∧
    (addSession (List.replicate 30 sampleRecord) sampleBase [] "fresh" " hi ").length =
      30 := by
  refine ⟨by simp, by simp, ?_, ?_⟩
  · exact ((history_cap (List.replicate 30 sampleRecord) (by simp) sampleBase []
      "fresh" " hi " "x").2.2.2.2 (by simp)).1
  · exact ((history_cap (List.replicate 30 sampleRecord) (by simp) sampleBase []
      "fresh" " hi " "y").2.2.2.2 (by simp)).2

/-! ## Claim C5: reliability classification -/

/-- C5.  For every sample sequence the summary's reliability is High exactly
when qualityAvg ≥ 75 and qualityMin ≥ 55, otherwise Medium exactly when
qualityAvg ≥ 60, otherwise Low; and the spec's boundary cases hold:
qualities averaging 75 with minimum 55 give High, and a 74.9 average gives
Medium. -/
theorem reliability_classification :
    (∀ (samples : List SessionSample) (a b c d : ℚ),
      ((computeSummary samples a b c d).reliability = Reliability.High ↔
        (computeSummary samples a b c d).qualityAvg ≥ 75 ∧
          (computeSummary samples a b c d).qualityMin ≥ 55) ∧
      ((computeSummary samples a b c d).reliability = Reliability.Medium ↔
        ¬((computeSummary samples a b c d).qualityAvg ≥ 75 ∧
            (computeSummary samples a b c d).qualityMin ≥ 55) ∧
          (computeSummary samples a b c d).qualityAvg ≥ 60) ∧
      ((computeSummary samples a b c d).reliability = Reliability.Low ↔
        ¬((computeSummary samples a b c d).qualityAvg ≥ 75 ∧
            (computeSummary samples a b c d).qualityMin ≥ 55) ∧
          ¬(computeSummary samples a b c d).qualityAvg ≥ 60)) ∧
    (computeSummary [⟨0, 0, 0, 55⟩, ⟨1, 0, 0, 95⟩] 0 0 0 0).qualityAvg = 75 ∧
    (computeSummary [⟨0, 0, 0, 55⟩, ⟨1, 0, 0, 95⟩] 0 0 0 0).qualityMin = 55 ∧
    (computeSummary [⟨0, 0, 0, 55⟩, ⟨1, 0, 0, 95⟩] 0 0 0 0).reliability =
      Reliability.High ∧
    (computeSummary [⟨0, 0, 0, 749/10⟩] 0 0 0 0).qualityAvg = 749/10 ∧
    (computeSummary [⟨0, 0, 0, 749/10⟩] 0 0 0 0).reliability = Reliability.Medium := by
  refine ⟨fun samples a b c d => ?_,
    by norm_num [computeSummary, mean, round1, jsRound, listMin, List.filter],
    by norm_num [computeSummary, mean, round1, jsRound, listMin, List.filter],
    by norm_num [computeSummary, mean, round1, jsRound, listMin, List.filter],
    by norm_num [computeSummary, mean, round1, jsRound, listMin, List.filter],
    by norm_num [computeSummary, mean, round1, jsRound, listMin, List.filter]⟩
  simp only [computeSummary]
  split_ifs with h1 h2 <;> simp_all

/-! ## Claim C9: the frame-quality score -/

/-- Monotonicity of JavaScript rounding. -/
theorem jsRound_mono {a b : ℚ} (h : a ≤ b) : jsRound a ≤ jsRound b :=
  Int.floor_le_floor (by linarith)

/-- Rounding then clamping to `[0, 100]` agrees with clamping then rounding,
because rounding is monotone and fixes the integer endpoints. -/
theorem jsRound_clamp (x : ℚ) :
    max 0 (min 100 (jsRound x)) = jsRound (max 0 (min 100 x)) := by
  have e0 : jsRound 0 = 0 := by norm_num [jsRound]
  have e100 : jsRound (100 : ℚ) = 100 := by norm_num [jsRound]
  rcases le_total x 0 with hx0 | hx0
  · have h1 : jsRound x ≤ 0 := e0 ▸ jsRound_mono hx0
    have h2 : min 100 x = x := min_eq_right (by linarith)
    have h3 : max (0 : ℚ) x = 0 := max_eq_left hx0
    rw [h2, h3, e0, min_eq_right (by omega), max_eq_left h1]
  · rcases le_total x 100 with hx1 | hx1
    · have h1 : 0 ≤ jsRound x := e0 ▸ jsRound_mono hx0
      have h2 : jsRound x ≤ 100 := e100 ▸ jsRound_mono hx1
      rw [min_eq_right h2, max_eq_right h1, min_eq_right hx1, max_eq_right hx0]
    · have h1 : (100 : ℤ) ≤ jsRound x := e100 ▸ jsRound_mono hx1
      rw [min_eq_left h1, max_eq_right (by omega : (0:ℤ) ≤ 100),
        min_eq_left hx1, max_eq_right (by norm_num : (0:ℚ) ≤ 100), e100]

/-- C9.  The frame-quality score: a frame with no landmarks scores exactly 0;
the source's round-then-clamp pipeline computes the same integer as the
spec's clamp-then-round description; and a frame whose nine key joints all
have visibility 1 scores exactly 100 (hence within `[100 - ε, 100]`). -/
theorem frame_quality_spec :
    computeFrameQuality [] = 0 ∧
    (∀ lms : List Landmark, computeFrameQuality lms = specFrameQuality lms) ∧
    (∀ lms : List Landmark, lms ≠ [] →
      (∀ i ∈ KEY_LANDMARK_INDICES, getVisibility lms i = 1) →
      computeFrameQuality lms = 100) := by
  refine ⟨rfl, fun lms => ?_, fun lms hne hvis => ?_⟩
  · by_cases h : lms.length = 0
    · simp [computeFrameQuality, specFrameQuality, h]
    · simp only [computeFrameQuality, specFrameQuality, h, if_false, jsRound_clamp]
  · have h0 := hvis NOSE (by simp [KEY_LANDMARK_INDICES])
    have h1 := hvis LEFT_SHOULDER (by simp [KEY_LANDMARK_INDICES])
    have h2 := hvis RIGHT_SHOULDER (by simp [KEY_LANDMARK_INDICES])
    have h3 := hvis LEFT_HIP (by simp [KEY_LANDMARK_INDICES])
    have h4 := hvis RIGHT_HIP (by simp [KEY_LANDMARK_INDICES])
    have h5 := hvis LEFT_KNEE (by simp [KEY_LANDMARK_INDICES])
    have h6 := hvis RIGHT_KNEE (by simp [KEY_LANDMARK_INDICES])
    have h7 := hvis LEFT_ANKLE (by simp [KEY_LANDMARK_INDICES])
    have h8 := hvis RIGHT_ANKLE (by simp [KEY_LANDMARK_INDICES])
    have hlen : ¬lms.length = 0 := by simpa [List.length_eq_zero] using hne
    simp only [computeFrameQuality, KEY_LANDMARK_INDICES, LEFT_KEY_INDICES,
      RIGHT_KEY_INDICES, avgVisibility, hlen, if_false, List.map_cons, List.map_nil,
      List.sum_cons, List.sum_nil, List.length_cons, List.length_nil, h0, h1, h2, h3,
      h4, h5, h6, h7, h8]
    norm_num [jsRound]

/-- Witness for C9 on a concrete 29-landmark frame with every visibility 1. -/
theorem frame_quality_spec_witness :
    List.replicate 29 ({ x := 0, y := 0, visibility := some 1 } : Landmark) ≠ [] ∧
    (∀ i ∈ KEY_LANDMARK_INDICES,
      getVisibility (List.replicate 29 ({ x := 0, y := 0, visibility := some 1 } : Landmark)) i = 1) ∧
    computeFrameQuality
      (List.replicate 29 ({ x := 0, y := 0, visibility := some 1 } : Landmark)) = 100 := by
  refine ⟨by simp, ?_, ?_⟩
  · intro i hi
    fin_cases hi <;> rfl
  · exact frame_quality_spec.2.2 _ (by simp) (by intro i hi; fin_cases hi <;> rfl)

/-! ## Claim C6: insight generation, filler line and truncation -/

/-- Counterexample to C6 as stated: on `c6Summary` with VO series
`[1, 2, 3, 3]` only the vertical-movement rule fires, producing one line —
fewer than four — yet no filler line is appended (the source skips the
filler whenever the vertical-movement rule fired). -/
theorem insights_filler_counterexample :
    generateInsights c6Summary [1, 2, 3, 3] = [voHighLine] ∧
    (generateInsights c6Summary [1, 2, 3, 3]).length = 1 ∧
    fillerLine ∉ generateInsights c6Summary [1, 2, 3, 3] := by
  have e : generateInsights c6Summary [1, 2, 3, 3] = [voHighLine] := by
    have hne : ¬(Reliability.Medium = Reliability.Low) := by simp
    have h2 : Int.toNat 2 = 2 := rfl
    norm_num [generateInsights, insightRuleLines, c6Summary, voHigh, percentile,
      sortAsc, insertSorted, h2, hne]
  refine ⟨e, by rw [e]; rfl, by rw [e]; simp [fillerLine, voHighLine]⟩

/-- If the vertical-movement rule fired, its line is among the generated
lines, so they are nonempty. -/
theorem insightRuleLines_ne_nil_of_voHigh (s : SummaryBase) (voValues : List ℚ)
    (hv : voHigh s voValues = true) : insightRuleLines s voValues ≠ [] := by
  simp [insightRuleLines, hv]

/-- C6 amended.  The returned insight list is never empty and never longer
than four lines, and is the first four generated lines in order; the filler
is appended exactly under the source's condition: fewer than four lines so
far and the vertical-movement rule did not fire (when it fired, no filler
is added even if fewer than four lines were produced). -/
theorem insights_filler_amended (s : SummaryBase) (voValues : List ℚ) :
    generateInsights s voValues ≠ [] ∧
    (generateInsights s voValues).length ≤ 4 ∧
    ((insightRuleLines s voValues).length < 4 → voHigh s voValues = false →
      generateInsights s voValues = insightRuleLines s voValues ++ [fillerLine]) ∧
    (voHigh s voValues = true →
      generateInsights s voValues = (insightRuleLines s voValues).take 4) ∧
    (4 ≤ (insightRuleLines s voValues).length →
      generateInsights s voValues = (insightRuleLines s voValues).take 4) := by
  by_cases hcond :
      ((insightRuleLines s voValues).length = 0 ∨
        ((insightRuleLines s voValues).length < 4 ∧ ¬(voHigh s voValues = true))) ∧
      (insightRuleLines s voValues).length < 4
  · have e : generateInsights s voValues =
        (insightRuleLines s voValues ++ [fillerLine]).take 4 := by
      simp only [generateInsights, if_pos hcond]
    refine ⟨?_, ?_, fun hlt _ => ?_, fun hv => ?_, fun h4 => ?_⟩
    · rw [e]
      simp [List.take_eq_nil_iff]
    · rw [e]
      simp [List.length_take]
    · rw [e]
      exact List.take_of_length_le (by simp; omega)
    · exfalso
      rcases hcond.1 with h0 | ⟨_, hnv⟩
      · exact insightRuleLines_ne_nil_of_voHigh s voValues hv (List.length_eq_zero.mp h0)
      · exact hnv hv
    · exact absurd h4 (not_le.mpr hcond.2)
  · have e : generateInsights s voValues = (insightRuleLines s voValues).take 4 := by
      simp only [generateInsights, if_neg hcond]
    have hge : 4 ≤ (insightRuleLines s voValues).length ∨ voHigh s voValues = true := by
      by_contra hc
      push_neg at hc
      obtain ⟨h4, hv⟩ := hc
      exact hcond ⟨Or.inr ⟨by omega, hv⟩, by omega⟩
    refine ⟨?_, ?_, fun hlt hvf => ?_, fun _ => e, fun _ => e⟩
    · rw [e]
      rcases hge with h4 | hv
      · simp only [ne_eq, List.take_eq_nil_iff]
        rintro (h | h)
        · omega
        · rw [h] at h4
          simp at h4
      · simp [List.take_eq_nil_iff, insightRuleLines_ne_nil_of_voHigh s voValues hv]
    · rw [e]
      simp [List.length_take]
    · exfalso
      rcases hge with h4 | hv
      · omega
      · rw [hvf] at hv
        exact absurd hv (by simp)

/-- Witness for C6 amended on a concrete summary where only the
low-reliability rule fires: the filler is appended. -/
theorem insights_filler_amended_witness :
    (insightRuleLines sampleBase []).length < 4 ∧
    voHigh sampleBase [] = false ∧
    generateInsights sampleBase [] = insightRuleLines sampleBase [] ++ [fillerLine] := by
  refine ⟨by norm_num [insightRuleLines, sampleBase, voHigh], by norm_num [voHigh], ?_⟩
  exact (insights_filler_amended sampleBase []).2.2.1
    (by norm_num [insightRuleLines, sampleBase, voHigh]) (by norm_num [voHigh])

/-! ## Claim C2: per-frame step detection in `MetricsSession.update` -/

/-- Mean of the empty list. -/
theorem mean_nil : mean [] = 0 := rfl

/-- Mean of a nonempty list, in evaluation-friendly form. -/
theorem mean_cons (x : ℚ) (l : List ℚ) : mean (x :: l) = (x + l.sum) / (l.length + 1) := by
  simp [mean, add_comm]

/-- Characterization of one `update` call: the chosen signal is pushed into
the smoothing buffer, the new smoothed value is its mean, and a step is
appended at the frame timestamp exactly when the smoothed value decreased,
the previous direction was up, the peak-to-current amplitude reaches the
threshold, and the cooldown since the last counted step has elapsed. -/
theorem update_char (s : MetricsState) (ankleY kneeY ankleVis kneeVis : ℚ)
    (side : Side) (midHipY blY t : ℚ) (stepY sm : ℚ) (buf : List ℚ)
    (hstep : stepY = if ankleVis ≥ kneeVis then ankleY else kneeY)
    (hbuf : buf = if (s.stepSignalBuffer ++ [stepY]).length > SMOOTH_SAMPLES then
        (s.stepSignalBuffer ++ [stepY]).drop 1 else s.stepSignalBuffer ++ [stepY])
    (hsm : sm = mean buf) :
    (MetricsSession.update s ankleY kneeY ankleVis kneeVis side midHipY blY t).stepSignalBuffer = buf ∧
    (MetricsSession.update s ankleY kneeY ankleVis kneeVis side midHipY blY t).prevSmoothedY = sm ∧
    (MetricsSession.update s ankleY kneeY ankleVis kneeVis side midHipY blY t).stepTimestamps =
      (if sm < s.prevSmoothedY ∧ s.direction = some Direction.up ∧
          s.lastPeakY - sm ≥ STEP_AMPLITUDE_THRESHOLD ∧ t - s.lastStepTime ≥ STEP_COOLDOWN_MS
        then s.stepTimestamps ++ [t] else s.stepTimestamps).filter
        (fun x => x ≥ t - STEP_WINDOW_MS) ∧
    (MetricsSession.update s ankleY kneeY ankleVis kneeVis side midHipY blY t).lastStepTime =
      (if sm < s.prevSmoothedY ∧ s.direction = some Direction.up ∧
          s.lastPeakY - sm ≥ STEP_AMPLITUDE_THRESHOLD ∧ t - s.lastStepTime ≥ STEP_COOLDOWN_MS
        then t else s.lastStepTime) := by
  simp only [MetricsSession.update]
  rw [← hstep, ← hbuf, ← hsm]
  rcases lt_trichotomy (sm - s.prevSmoothedY) 0 with h | h | h
  · have h1 : ¬(sm - s.prevSmoothedY > 0) := by linarith
    have h2 : sm < s.prevSmoothedY := by linarith
    by_cases hc : s.direction = some Direction.up ∧
        s.lastPeakY - sm ≥ STEP_AMPLITUDE_THRESHOLD ∧ t - s.lastStepTime ≥ STEP_COOLDOWN_MS
    · simp [h1, h, hc, h2]
    · simp only [if_neg h1, if_pos h, if_neg hc]
      simp [h2, hc]
  · have h1 : ¬(sm - s.prevSmoothedY > 0) := by simp [h]
    have h2 : ¬(sm - s.prevSmoothedY < 0) := by simp [h]
    have h3 : ¬(sm < s.prevSmoothedY) := by
      intro hlt
      exact absurd (by linarith : sm - s.prevSmoothedY < 0) h2
    simp [h1, h2, h3]
  · have h1 : sm - s.prevSmoothedY > 0 := h
    have h3 : ¬(sm < s.prevSmoothedY) := by
      intro hlt
      linarith
    simp [h1, h3]

/-- C2.  During tracking each `update` uses the ankle Y when ankle
visibility ≥ knee visibility and the knee Y otherwise, smooths it with a
5-sample moving average (the buffer never grows past 5 samples), and
records a step at the frame timestamp exactly when the smoothed value
decreases while the prior direction was up, the amplitude
`lastPeakY - smoothedY` reaches the fixed 0.012 threshold, and at least the
fixed 280 ms cooldown has elapsed since the last counted step. -/
theorem update_step_detection (s : MetricsState) (ankleY kneeY ankleVis kneeVis : ℚ)
    (side : Side) (midHipY blY t : ℚ) (stepY sm : ℚ) (buf : List ℚ)
    (hstep : stepY = if ankleVis ≥ kneeVis then ankleY else kneeY)
    (hbuf : buf = if (s.stepSignalBuffer ++ [stepY]).length > SMOOTH_SAMPLES then
        (s.stepSignalBuffer ++ [stepY]).drop 1 else s.stepSignalBuffer ++ [stepY])
    (hsm : sm = mean buf) :
    (MetricsSession.update s ankleY kneeY ankleVis kneeVis side midHipY blY t).stepSignalBuffer = buf ∧
    (s.stepSignalBuffer.length ≤ SMOOTH_SAMPLES → buf.length ≤ SMOOTH_SAMPLES) ∧
    (MetricsSession.update s ankleY kneeY ankleVis kneeVis side midHipY blY t).prevSmoothedY = sm ∧
    (MetricsSession.update s ankleY kneeY ankleVis kneeVis side midHipY blY t).stepTimestamps =
      (if sm < s.prevSmoothedY ∧ s.direction = some Direction.up ∧
          s.lastPeakY - sm ≥ STEP_AMPLITUDE_THRESHOLD ∧ t - s.lastStepTime ≥ STEP_COOLDOWN_MS
        then s.stepTimestamps ++ [t] else s.stepTimestamps).filter
        (fun x => x ≥ t - STEP_WINDOW_MS) ∧
    (MetricsSession.update s ankleY kneeY ankleVis kneeVis side midHipY blY t).lastStepTime =
      (if sm < s.prevSmoothedY ∧ s.direction = some Direction.up ∧
          s.lastPeakY - sm ≥ STEP_AMPLITUDE_THRESHOLD ∧ t - s.lastStepTime ≥ STEP_COOLDOWN_MS
        then t else s.lastStepTime) := by
  obtain ⟨h1, h2, h3, h4⟩ :=
    update_char s ankleY kneeY ankleVis kneeVis side midHipY blY t stepY sm buf hstep hbuf hsm
  refine ⟨h1, ?_, h2, h3, h4⟩
  intro hlen
  subst hbuf
  split_ifs with hgt
  · simp only [List.length_drop, List.length_append, List.length_cons, List.length_nil]
    omega
  · simp only [List.length_append, List.length_cons, List.length_nil] at hgt ⊢
    omega

/-- Witness for C2 on a fresh session: the first update pushes the selected
ankle signal, smooths it to its own value, and records no step. -/
theorem update_step_detection_witness :
    (MetricsSession.update MetricsSession.init 1 2 1 0 Side.L 0 0 1000).stepSignalBuffer = [1] ∧
    (MetricsSession.update MetricsSession.init 1 2 1 0 Side.L 0 0 1000).prevSmoothedY = 1 ∧
    (MetricsSession.update MetricsSession.init 1 2 1 0 Side.L 0 0 1000).stepTimestamps = [] ∧
    (MetricsSession.update MetricsSession.init 1 2 1 0 Side.L 0 0 1000).lastStepTime = 0 := by
  have h := update_step_detection MetricsSession.init 1 2 1 0 Side.L 0 0 1000 1 1 [1]
    (by norm_num) (by norm_num [MetricsSession.init, SMOOTH_SAMPLES]) (by norm_num [mean])
  refine ⟨h.1, h.2.2.1, ?_, ?_⟩
  · rw [h.2.2.2.1]
    norm_num [MetricsSession.init]
  · rw [h.2.2.2.2]
    norm_num [MetricsSession.init]

/-! ## Claim C10: the cooldown spaces steps, bounding the cadence -/

/-- One `update` preserves the cooldown-gap invariant: step timestamps are
pairwise at least one cooldown apart and all bounded by `lastStepTime`. -/
theorem inv_step_abstract (steps : List ℚ) (lastStep t : ℚ) (C : Prop) [Decidable C]
    (hC : C → t - lastStep ≥ STEP_COOLDOWN_MS)
    (hpw : steps.Pairwise (fun a b => a + STEP_COOLDOWN_MS ≤ b))
    (hle : ∀ x ∈ steps, x ≤ lastStep) :
    ((if C then steps ++ [t] else steps).filter
      (fun x => x ≥ t - STEP_WINDOW_MS)).Pairwise (fun a b => a + STEP_COOLDOWN_MS ≤ b) ∧
    ∀ x ∈ (if C then steps ++ [t] else steps).filter (fun x => x ≥ t - STEP_WINDOW_MS),
      x ≤ (if C then t else lastStep) := by
  split_ifs with hc
  · have hcool : t - lastStep ≥ STEP_COOLDOWN_MS := hC hc
    have hcpos : (0 : ℚ) < STEP_COOLDOWN_MS := by norm_num [STEP_COOLDOWN_MS]
    constructor
    · refine List.Pairwise.filter _ ?_
      rw [List.pairwise_append]
      refine ⟨hpw, List.pairwise_singleton _ _, ?_⟩
      intro a ha b hb
      rw [List.mem_singleton] at hb
      subst hb
      have := hle a ha
      linarith
    · intro x hx
      rw [List.mem_filter, List.mem_append] at hx
      rcases hx.1 with hmem | hmem
      · have := hle x hmem
        linarith
      · rw [List.mem_singleton] at hmem
        exact le_of_eq hmem
  · refine ⟨List.Pairwise.filter _ hpw, ?_⟩
    intro x hx
    rw [List.mem_filter] at hx
    exact hle x hx.1

/-- One `update` preserves the cooldown-gap invariant (state form). -/
theorem update_inv (s : MetricsState) (ankleY kneeY ankleVis kneeVis : ℚ)
    (side : Side) (midHipY blY t : ℚ)
    (hpw : s.stepTimestamps.Pairwise (fun a b => a + STEP_COOLDOWN_MS ≤ b))
    (hle : ∀ x ∈ s.stepTimestamps, x ≤ s.lastStepTime) :
    (MetricsSession.update s ankleY kneeY ankleVis kneeVis side midHipY blY t).stepTimestamps.Pairwise
      (fun a b => a + STEP_COOLDOWN_MS ≤ b) ∧
    ∀ x ∈ (MetricsSession.update s ankleY kneeY ankleVis kneeVis side midHipY blY t).stepTimestamps,
      x ≤ (MetricsSession.update s ankleY kneeY ankleVis kneeVis side midHipY blY t).lastStepTime := by
  obtain ⟨_, _, h3, h4⟩ :=
    update_char s ankleY kneeY ankleVis kneeVis side midHipY blY t _ _ _ rfl rfl rfl
  rw [h3, h4]
  exact inv_step_abstract s.stepTimestamps s.lastStepTime t _ (fun hc => hc.2.2.2) hpw hle

/-- The invariant holds after any run of updates from a fresh session. -/
theorem processUpdates_inv (l : List UpdateArgs) : ∀ s : MetricsState,
    s.stepTimestamps.Pairwise (fun a b => a + STEP_COOLDOWN_MS ≤ b) →
    (∀ x ∈ s.stepTimestamps, x ≤ s.lastStepTime) →
    (processUpdates s l).stepTimestamps.Pairwise (fun a b => a + STEP_COOLDOWN_MS ≤ b) ∧
    ∀ x ∈ (processUpdates s l).stepTimestamps, x ≤ (processUpdates s l).lastStepTime := by
  induction l with
  | nil => exact fun s hpw hle => ⟨hpw, hle⟩
  | cons a rest ih =>
    intro s hpw hle
    obtain ⟨hpw', hle'⟩ := update_inv s a.ankleY a.kneeY a.ankleVis a.kneeVis a.ankleUsed
      a.midHipY a.baselineHipY a.timestampMs hpw hle
    exact ih _ hpw' hle'

/-- A list of rationals pairwise one cooldown apart inside an interval
shorter than `n` cooldowns has at most `n` elements. -/
theorem pairwise_gap_count (n : ℕ) : ∀ (l : List ℚ) (lo hi : ℚ),
    l.Pairwise (fun a b => a + STEP_COOLDOWN_MS ≤ b) →
    (∀ x ∈ l, lo ≤ x ∧ x ≤ hi) → hi < lo + STEP_COOLDOWN_MS * n → l.length ≤ n := by
  induction n with
  | zero =>
    intro l lo hi hpw hmem hlt
    cases l with
    | nil => simp
    | cons x xs =>
      obtain ⟨hxlo, hxhi⟩ := hmem x (List.mem_cons_self x xs)
      push_cast at hlt
      linarith
  | succ n ih =>
    intro l lo hi hpw hmem hlt
    cases l with
    | nil => simp
    | cons x xs =>
      rw [List.pairwise_cons] at hpw
      have hxlo := (hmem x (List.mem_cons_self x xs)).1
      have hlen : xs.length ≤ n := by
        refine ih xs (lo + STEP_COOLDOWN_MS) hi hpw.2 ?_ ?_
        · intro y hy
          have hgap := hpw.1 y hy
          exact ⟨by linarith, (hmem y (List.mem_cons_of_mem x hy)).2⟩
        · push_cast at hlt ⊢
          linarith
      simpa using Nat.succ_le_succ hlen

/-- Rounding to one decimal fixes an integer value. -/
theorem round1_intCast (z : ℤ) : round1 (z : ℚ) = (z : ℚ) := by
  unfold round1 jsRound
  have e : ((z : ℚ) * 10 + 1/2) = ((10 * z : ℤ) : ℚ) + 1/2 := by push_cast; ring
  rw [e, Int.floor_int_add, show ⌊(1/2 : ℚ)⌋ = 0 by norm_num]
  push_cast
  ring

/-! ## Claim C3: the snapshot formulas -/

/-- The natural-number floor of a real square root is the natural square
root of the floor. -/
theorem floor_sqrt_floor (x : ℝ) (hx : 0 ≤ x) : ⌊Real.sqrt x⌋₊ = Nat.sqrt ⌊x⌋₊ := by
  rw [Nat.floor_eq_iff (Real.sqrt_nonneg x)]
  constructor
  · rw [Real.le_sqrt (by positivity) hx]
    calc ((Nat.sqrt ⌊x⌋₊ : ℝ)) ^ 2 = ((Nat.sqrt ⌊x⌋₊ ^ 2 : ℕ) : ℝ) := by push_cast; ring
      _ ≤ (⌊x⌋₊ : ℝ) := by exact_mod_cast Nat.sqrt_le' _
      _ ≤ x := Nat.floor_le hx
  · rw [show ((Nat.sqrt ⌊x⌋₊ : ℝ) + 1) = ((Nat.sqrt ⌊x⌋₊ + 1 : ℕ) : ℝ) by push_cast; ring]
    rw [Real.sqrt_lt' (by positivity)]
    calc x < (⌊x⌋₊ : ℝ) + 1 := Nat.lt_floor_add_one x
      _ = ((⌊x⌋₊ + 1 : ℕ) : ℝ) := by push_cast; ring
      _ ≤ (((Nat.sqrt ⌊x⌋₊ + 1) ^ 2 : ℕ) : ℝ) := by exact_mod_cast Nat.succ_le_succ_sqrt' _
      _ = ((Nat.sqrt ⌊x⌋₊ + 1 : ℕ) : ℝ) ^ 2 := by push_cast; ring

/-- The executable `sqrtRound10` computes exactly `Math.round` of ten times
the real square root of a nonnegative rational. -/
theorem sqrtRound10_eq_floor (q : ℚ) (hq : 0 ≤ q) :
    (sqrtRound10 q : ℤ) = ⌊Real.sqrt (q : ℝ) * 10 + 1/2⌋ := by
  have hr0 : (0 : ℝ) ≤ Real.sqrt (q : ℝ) := Real.sqrt_nonneg _
  have h20 : Real.sqrt ((400 * q : ℚ) : ℝ) = Real.sqrt (q : ℝ) * 20 := by
    push_cast
    rw [show ((400 : ℝ) * q) = 20 ^ 2 * q by ring, Real.sqrt_mul (by positivity),
      Real.sqrt_sq (by norm_num)]
    ring
  have hfloor : Int.toNat ⌊(400 * q : ℚ)⌋ = ⌊((400 * q : ℚ) : ℝ)⌋₊ := by
    rw [← Rat.floor_cast (α := ℝ), Int.floor_toNat]
  have hA : Nat.sqrt (Int.toNat ⌊(400 * q : ℚ)⌋) = ⌊Real.sqrt (q : ℝ) * 20⌋₊ := by
    rw [hfloor, ← floor_sqrt_floor _ (by positivity), h20]
  rw [sqrtRound10, hA]
  have hn1 : ((⌊Real.sqrt (q : ℝ) * 20⌋₊ : ℕ) : ℝ) ≤ Real.sqrt (q : ℝ) * 20 :=
    Nat.floor_le (by positivity)
  have hn2 : Real.sqrt (q : ℝ) * 20 < (⌊Real.sqrt (q : ℝ) * 20⌋₊ : ℕ) + 1 :=
    Nat.lt_floor_add_one _
  rcases Nat.even_or_odd ⌊Real.sqrt (q : ℝ) * 20⌋₊ with ⟨k, hk⟩ | ⟨k, hk⟩
  · rw [hk] at hn1 hn2 ⊢
    rw [show (k + k + 1) / 2 = k from by omega]
    symm
    rw [Int.floor_eq_iff]
    push_cast at hn1 hn2 ⊢
    constructor <;> linarith
  · rw [hk] at hn1 hn2 ⊢
    rw [show (2 * k + 1 + 1) / 2 = k + 1 from by omega]
    symm
    rw [Int.floor_eq_iff]
    push_cast at hn1 hn2 ⊢
    constructor <;> linarith

/-- The sample variance is nonnegative. -/
theorem sampleVar_nonneg (l : List ℚ) : 0 ≤ sampleVar l := by
  unfold sampleVar
  split_ifs with h
  · exact le_refl 0
  · apply div_nonneg
    · apply List.sum_nonneg
      intro x hx
      rw [List.mem_map] at hx
      obtain ⟨y, _, rfl⟩ := hx
      positivity
    · have h2 : (2 : ℚ) ≤ (l.length : ℚ) := by exact_mod_cast (by omega : 2 ≤ l.length)
      linarith

/-- `stddevRound1` is the one-decimal rounding of the real sample standard
deviation when at least two values are present. -/
theorem stddevRound1_eq_floor (l : List ℚ) (h2 : 2 ≤ l.length) :
    stddevRound1 l = ((⌊Real.sqrt ((sampleVar l : ℚ) : ℝ) * 10 + 1/2⌋ : ℤ) : ℚ) / 10 := by
  rw [stddevRound1, if_neg (by omega)]
  rw [show ((sqrtRound10 (sampleVar l) : ℕ) : ℚ) = (((sqrtRound10 (sampleVar l) : ℕ) : ℤ) : ℚ)
    from by push_cast; ring]
  rw [sqrtRound10_eq_floor _ (sampleVar_nonneg l)]

/-- Rounding `count * 6` to one decimal is exact. -/
theorem round1_count_mul (n : ℕ) : round1 ((n : ℚ) * CADENCE_FACTOR) = (n : ℚ) * 6 := by
  rw [show ((n : ℚ) * CADENCE_FACTOR) = ((6 * n : ℤ) : ℚ) by push_cast [CADENCE_FACTOR]; ring,
    round1_intCast]
  push_cast
  ring

/-- Rounding zero to three decimals is zero. -/
theorem round3_zero : round3 0 = 0 := by norm_num [round3, jsRound]

/-- C3.  `getSnapshot t` reports cadence = (steps with timestamp ≥ t − 10 s)
× 6 (its one-decimal rounding is exact); voProxy = the three-decimal
rounding of max − min of the deviations recorded in the trailing 5 s, or 0
with fewer than two; stability = the one-decimal rounding of the sample
standard deviation (n−1 denominator) of the cadence samples in the trailing
30 s, or 0 with fewer than two; windows are inclusive at the cutoff. -/
theorem getSnapshot_spec (s : MetricsState) (T : ℚ) :
    (MetricsSession.getSnapshot s T).cadence =
      ((s.stepTimestamps.filter (fun x => x ≥ T - STEP_WINDOW_MS)).length : ℚ) * 6 ∧
    (MetricsSession.getSnapshot s T).stepsLast10s =
      (s.stepTimestamps.filter (fun x => x ≥ T - STEP_WINDOW_MS)).length ∧
    (MetricsSession.getSnapshot s T).voProxy =
      (if ((s.deviations.filter (fun d => d.1 ≥ T - VO_WINDOW_MS)).map (fun d => d.2)).length < 2
        then 0
        else round3
          (listMax ((s.deviations.filter (fun d => d.1 ≥ T - VO_WINDOW_MS)).map (fun d => d.2)) -
            listMin ((s.deviations.filter (fun d => d.1 ≥ T - VO_WINDOW_MS)).map (fun d => d.2)))) ∧
    (MetricsSession.getSnapshot s T).stability =
      (if ((s.cadenceSamples.filter (fun p => p.1 ≥ T - CADENCE_SAMPLE_WINDOW_MS)).map
          (fun p => p.2)).length < 2
        then 0
        else ((⌊Real.sqrt ((sampleVar ((s.cadenceSamples.filter
            (fun p => p.1 ≥ T - CADENCE_SAMPLE_WINDOW_MS)).map (fun p => p.2)) : ℚ) : ℝ) * 10 +
            1/2⌋ : ℤ) : ℚ) / 10) := by
  refine ⟨?_, rfl, ?_, ?_⟩
  · simp only [MetricsSession.getSnapshot]
    exact round1_count_mul _
  · simp only [MetricsSession.getSnapshot]
    split_ifs with h
    · exact round3_zero
    · rfl
  · simp only [MetricsSession.getSnapshot]
    split_ifs with h
    · rw [stddevRound1, if_pos (by simpa using h)]
    · exact stddevRound1_eq_floor _ (by omega)

/-- C10.  Over any run with strictly increasing timestamps from a fresh
session, recorded step timestamps are pairwise at least the 280 ms cooldown
apart; hence any trailing 10-second window holds at most 36 of them and the
reported cadence is at most 216 steps per minute. -/
theorem step_cooldown_cadence_bound (l : List UpdateArgs)
    (_hinc : l.Chain' (fun a b => a.timestampMs < b.timestampMs)) (T : ℚ)
    (hT : (processUpdates MetricsSession.init l).lastStepTime ≤ T) :
    (processUpdates MetricsSession.init l).stepTimestamps.Pairwise
      (fun a b => a + STEP_COOLDOWN_MS ≤ b) ∧
    ((processUpdates MetricsSession.init l).stepTimestamps.filter
      (fun x => x ≥ T - STEP_WINDOW_MS)).length ≤ 36 ∧
    (MetricsSession.getSnapshot (processUpdates MetricsSession.init l) T).cadence ≤ 216 := by
  obtain ⟨hpw, hle⟩ := processUpdates_inv l MetricsSession.init (by simp [MetricsSession.init])
    (by simp [MetricsSession.init])
  have hcount : ((processUpdates MetricsSession.init l).stepTimestamps.filter
      (fun x => x ≥ T - STEP_WINDOW_MS)).length ≤ 36 := by
    refine pairwise_gap_count 36 _ (T - STEP_WINDOW_MS) T (hpw.filter _) ?_ ?_
    · intro x hx
      rw [List.mem_filter] at hx
      refine ⟨by simpa using hx.2, (hle x hx.1).trans hT⟩
    · simp only [STEP_COOLDOWN_MS, STEP_WINDOW_MS]
      push_cast
      linarith
  refine ⟨hpw, hcount, ?_⟩
  have e : (MetricsSession.getSnapshot (processUpdates MetricsSession.init l) T).cadence =
      (((processUpdates MetricsSession.init l).stepTimestamps.filter
        (fun x => x ≥ T - STEP_WINDOW_MS)).length : ℚ) * CADENCE_FACTOR := by
    simp only [MetricsSession.getSnapshot]
    rw [show ((((processUpdates MetricsSession.init l).stepTimestamps.filter
        (fun x => x ≥ T - STEP_WINDOW_MS)).length : ℚ) * CADENCE_FACTOR) =
        (((6 * ((processUpdates MetricsSession.init l).stepTimestamps.filter
          (fun x => x ≥ T - STEP_WINDOW_MS)).length : ℤ) : ℚ)) by push_cast [CADENCE_FACTOR]; ring]
    rw [round1_intCast]
  rw [e]
  have : (((processUpdates MetricsSession.init l).stepTimestamps.filter
      (fun x => x ≥ T - STEP_WINDOW_MS)).length : ℚ) ≤ 36 := by exact_mod_cast hcount
  calc (((processUpdates MetricsSession.init l).stepTimestamps.filter
      (fun x => x ≥ T - STEP_WINDOW_MS)).length : ℚ) * CADENCE_FACTOR
      ≤ 36 * CADENCE_FACTOR := by
        have h6 : (0 : ℚ) ≤ CADENCE_FACTOR := by norm_num [CADENCE_FACTOR]
        exact mul_le_mul_of_nonneg_right this h6
    _ = 216 := by norm_num [CADENCE_FACTOR]

/-- Witness for C10 on the three-frame demo run, where one step is recorded
at t = 1600 and the snapshot at t = 2000 reports cadence 6. -/
theorem step_cooldown_cadence_bound_witness :
    demoRun.Chain' (fun a b => a.timestampMs < b.timestampMs) ∧
    (processUpdates MetricsSession.init demoRun).lastStepTime ≤ 2000 ∧
    ((processUpdates MetricsSession.init demoRun).stepTimestamps.Pairwise
      (fun a b => a + STEP_COOLDOWN_MS ≤ b) ∧
    ((processUpdates MetricsSession.init demoRun).stepTimestamps.filter
      (fun x => x ≥ 2000 - STEP_WINDOW_MS)).length ≤ 36 ∧
    (MetricsSession.getSnapshot (processUpdates MetricsSession.init demoRun) 2000).cadence ≤ 216) := by
  refine ⟨?_, ?_, step_cooldown_cadence_bound demoRun ?_ 2000 ?_⟩
  · norm_num [demoRun, List.chain'_cons]
  · norm_num [demoRun, processUpdates, MetricsSession.update, MetricsSession.init, mean_cons,
      SMOOTH_SAMPLES, STEP_AMPLITUDE_THRESHOLD, STEP_COOLDOWN_MS, STEP_WINDOW_MS,
      VO_WINDOW_MS, CADENCE_SAMPLE_INTERVAL_MS, CADENCE_SAMPLE_WINDOW_MS, CADENCE_FACTOR]
  · norm_num [demoRun, List.chain'_cons]
  · norm_num [demoRun, processUpdates, MetricsSession.update, MetricsSession.init, mean_cons,
      SMOOTH_SAMPLES, STEP_AMPLITUDE_THRESHOLD, STEP_COOLDOWN_MS, STEP_WINDOW_MS,
      VO_WINDOW_MS, CADENCE_SAMPLE_INTERVAL_MS, CADENCE_SAMPLE_WINDOW_MS, CADENCE_FACTOR]

/-! ## Claims C1 and C4: the calibration sampler -/

/-- Good times distribute over append. -/
theorem goodTimes_append (a b : List (CalibFrame × ℚ)) :
    goodTimes (a ++ b) = goodTimes a ++ goodTimes b := by
  simp [goodTimes, List.filter_append]

theorem goodHips_append (a b : List (CalibFrame × ℚ)) :
    goodHips (a ++ b) = goodHips a ++ goodHips b := by
  simp [goodHips, List.filterMap_append]

theorem goodShoulders_append (a b : List (CalibFrame × ℚ)) :
    goodShoulders (a ++ b) = goodShoulders a ++ goodShoulders b := by
  simp [goodShoulders, List.filterMap_append]

/-- Last timestamp of a list extended by one element. -/
theorem lastTime_concat : ∀ (l : List ℚ) (t : ℚ), lastTime (l ++ [t]) = t
  | [], _ => rfl
  | [_], _ => rfl
  | _ :: y :: rest, t => by
    show lastTime (y :: (rest ++ [t])) = t
    exact lastTime_concat (y :: rest) t

/-- The last timestamp of a nonempty list is one of its elements. -/
theorem lastTime_mem : ∀ (l : List ℚ), l ≠ [] → lastTime l ∈ l
  | [x], _ => by simp [lastTime]
  | x :: y :: rest, _ => by
    have ih := lastTime_mem (y :: rest) (by simp)
    show lastTime (y :: rest) ∈ x :: y :: rest
    exact List.mem_cons_of_mem x ih

/-- Extending a nonempty list adds the delta to its last element. -/
theorem deltaSum_concat : ∀ (l : List ℚ) (t : ℚ), l ≠ [] →
    deltaSum (l ++ [t]) = deltaSum l + (t - lastTime l)
  | [x], t, _ => by simp [deltaSum, lastTime]
  | x :: y :: rest, t, _ => by
    have ih := deltaSum_concat (y :: rest) t (by simp)
    show (y - x) + deltaSum ((y :: rest) ++ [t]) = ((y - x) + deltaSum (y :: rest)) + _
    rw [ih]
    show _ = (y - x) + deltaSum (y :: rest) + (t - lastTime (y :: rest))
    ring

/-- A bad or incomplete frame leaves the calibration state unchanged. -/
theorem handleCalib_bad (s : CalibState) (f : CalibFrame) (t : ℚ)
    (hg : goodFrame f = false) : handleCalibrationFrame s f t = s := by
  rcases f with ⟨mh, ms, ig⟩
  unfold handleCalibrationFrame
  by_cases hphase : s.phase ≠ Phase.calibrating
  · rw [if_pos hphase]
  · rw [if_neg hphase]
    cases ig <;> cases mh <;> cases ms <;> simp_all [goodFrame]

/-- One calibration frame advances the predicted state, as long as good
timestamps are nonzero (the sentinel value) and no finalization occurs. -/
theorem handleCalib_step (h : List (CalibFrame × ℚ)) (f : CalibFrame) (t : ℚ)
    (hnz : ∀ x ∈ goodTimes h, x ≠ 0)
    (hlt : deltaSum (goodTimes (h ++ [(f, t)])) < CALIBRATION_DURATION_MS) :
    handleCalibrationFrame (calibStateOf h) f t = calibStateOf (h ++ [(f, t)]) := by
  by_cases hg : goodFrame f = true
  · rcases f with ⟨mh, ms, ig⟩
    simp only [goodFrame, Bool.and_eq_true] at hg
    obtain ⟨⟨hig, hmh⟩, hms⟩ := hg
    obtain ⟨hip, rfl⟩ := Option.isSome_iff_exists.mp hmh
    obtain ⟨sh, rfl⟩ := Option.isSome_iff_exists.mp hms
    subst hig
    have hgg : goodFrame ⟨some hip, some sh, true⟩ = true := by simp [goodFrame]
    have hGT : goodTimes (h ++ [(⟨some hip, some sh, true⟩, t)]) = goodTimes h ++ [t] := by
      rw [goodTimes_append]
      simp [goodTimes, hgg]
    have hGH : goodHips (h ++ [(⟨some hip, some sh, true⟩, t)]) = goodHips h ++ [hip] := by
      rw [goodHips_append]
      simp [goodHips, hgg]
    have hGS : goodShoulders (h ++ [(⟨some hip, some sh, true⟩, t)]) =
        goodShoulders h ++ [sh] := by
      rw [goodShoulders_append]
      simp [goodShoulders, hgg]
    rw [hGT] at hlt
    by_cases hempty : goodTimes h = []
    · have hacc : deltaSum (goodTimes h) = 0 := by rw [hempty]; rfl
      have hlast : lastTime (goodTimes h) = 0 := by rw [hempty]; rfl
      have hds : deltaSum (goodTimes h ++ [t]) = 0 := by rw [hempty]; rfl
      simp only [handleCalibrationFrame, calibStateOf, hacc, hlast, hds, hGT, hGH, hGS]
      norm_num [CALIBRATION_DURATION_MS, lastTime_concat]
    · have hlast_ne : lastTime (goodTimes h) ≠ 0 := hnz _ (lastTime_mem _ hempty)
      have hdelta : deltaSum (goodTimes h ++ [t]) =
          deltaSum (goodTimes h) + (t - lastTime (goodTimes h)) := deltaSum_concat _ t hempty
      have hlt2 : ¬(deltaSum (goodTimes h) + (t - lastTime (goodTimes h)) ≥
          CALIBRATION_DURATION_MS) := by
        rw [← hdelta]
        exact not_le.mpr hlt
      simp only [handleCalibrationFrame, calibStateOf, hGT, hGH, hGS]
      simp [hlast_ne, hdelta, lastTime_concat, hlt2]
  · have hg' : goodFrame f = false := by simpa using hg
    have hGT : goodTimes (h ++ [(f, t)]) = goodTimes h := by
      rw [goodTimes_append]
      simp [goodTimes, hg']
    have hGH : goodHips (h ++ [(f, t)]) = goodHips h := by
      rw [goodHips_append]
      simp [goodHips, hg']
    have hGS : goodShoulders (h ++ [(f, t)]) = goodShoulders h := by
      rw [goodShoulders_append]
      simp [goodShoulders, hg']
    rw [handleCalib_bad _ _ _ hg']
    simp [calibStateOf, hGT, hGH, hGS]

/-- Running the sampler over any frame sequence whose good timestamps are
nonzero and whose prefix delta sums stay below the threshold produces
exactly the predicted state. -/
theorem processCalibration_run : ∀ (l h : List (CalibFrame × ℚ)),
    (∀ x ∈ goodTimes (h ++ l), x ≠ 0) →
    (∀ n, n ≤ (h ++ l).length →
      deltaSum (goodTimes ((h ++ l).take n)) < CALIBRATION_DURATION_MS) →
    processCalibration (calibStateOf h) l = calibStateOf (h ++ l) := by
  intro l
  induction l with
  | nil =>
    intro h _ _
    simp [processCalibration]
  | cons p rest ih =>
    intro h hnz hb
    have htake : (h ++ p :: rest).take (h.length + 1) = h ++ [p] := by
      rw [List.take_append_eq_append_take]
      simp [List.take_of_length_le]
    have hstep : handleCalibrationFrame (calibStateOf h) p.1 p.2 = calibStateOf (h ++ [p]) := by
      apply handleCalib_step
      · intro x hx
        apply hnz
        rw [goodTimes_append]
        exact List.mem_append_left _ hx
      · have := hb (h.length + 1) (by simp)
        rw [htake] at this
        simpa using this
    have hrest := ih (h ++ [p])
      (by
        intro x hx
        apply hnz
        rw [List.append_assoc] at hx
        simpa using hx)
      (by
        intro n hn
        have := hb n (by simpa [List.append_assoc] using hn)
        simpa [List.append_assoc] using this)
    calc processCalibration (calibStateOf h) (p :: rest)
        = processCalibration (handleCalibrationFrame (calibStateOf h) p.1 p.2) rest := by
          simp [processCalibration]
      _ = processCalibration (calibStateOf (h ++ [p])) rest := by rw [hstep]
      _ = calibStateOf ((h ++ [p]) ++ rest) := hrest
      _ = calibStateOf (h ++ p :: rest) := by simp

/-- C1 amended.  For every frame sequence whose good frames carry nonzero
timestamps (as `performance.now()` guarantees) and whose accumulated good
time stays below the finalization threshold, the accumulator equals the sum
of the time deltas between consecutive good frames only - bad-frame gaps
never contribute - and a bad frame leaves the whole state unchanged. -/
theorem calibration_accumulator (frames : List (CalibFrame × ℚ))
    (hnz : ∀ p ∈ frames, goodFrame p.1 = true → p.2 ≠ 0)
    (hb : ∀ n, n ≤ frames.length →
      deltaSum (goodTimes (frames.take n)) < CALIBRATION_DURATION_MS) :
    ((processCalibration initCalibState frames).goodTimeAccumulated =
        deltaSum (goodTimes frames) ∧
      processCalibration initCalibState frames = calibStateOf frames) ∧
    ∀ (s : CalibState) (f : CalibFrame) (t : ℚ), goodFrame f = false →
      handleCalibrationFrame s f t = s := by
  have hinit : initCalibState = calibStateOf [] := rfl
  have hrun := processCalibration_run frames []
    (by
      intro x hx
      simp only [List.nil_append] at hx
      simp only [goodTimes, List.mem_map, List.mem_filter] at hx
      obtain ⟨p, ⟨hpmem, hpgood⟩, rfl⟩ := hx
      exact hnz p hpmem hpgood)
    (by intro n hn; simpa using hb n (by simpa using hn))
  rw [List.nil_append] at hrun
  rw [hinit]
  exact ⟨⟨by rw [hrun]; rfl, hrun⟩, fun s f t hg => handleCalib_bad s f t hg⟩

/-- Witness for C1 on the three-frame fixture: the gap around the bad frame
is not skipped (the two good frames are consecutive) and the accumulator
ends at 1000 ms. -/
theorem calibration_accumulator_witness :
    (∀ p ∈ demoCalibFrames, goodFrame p.1 = true → p.2 ≠ 0) ∧
    deltaSum (goodTimes demoCalibFrames) = 1000 ∧
    (processCalibration initCalibState demoCalibFrames).goodTimeAccumulated = 1000 ∧
    handleCalibrationFrame (calibStateOf demoCalibFrames) ⟨none, none, false⟩ 2500 =
      calibStateOf demoCalibFrames := by
  have hnz : ∀ p ∈ demoCalibFrames, goodFrame p.1 = true → p.2 ≠ 0 := by
    intro p hp
    fin_cases hp <;> norm_num [goodFrame]
  have hb : ∀ n, n ≤ demoCalibFrames.length →
      deltaSum (goodTimes (demoCalibFrames.take n)) < CALIBRATION_DURATION_MS := by
    intro n hn
    simp only [demoCalibFrames, List.length_cons, List.length_nil] at hn
    interval_cases n <;>
      norm_num [demoCalibFrames, goodTimes, goodFrame, deltaSum, CALIBRATION_DURATION_MS]
  have h := calibration_accumulator demoCalibFrames hnz hb
  refine ⟨hnz, ?_, ?_, h.2 _ _ _ (by norm_num [goodFrame])⟩
  · norm_num [demoCalibFrames, goodTimes, goodFrame, deltaSum]
  · rw [h.1.1]
    norm_num [demoCalibFrames, goodTimes, goodFrame, deltaSum]

/-- Counterexample to C1 as stated: two good frames at timestamps 0 and
1000 are consecutive good frames with delta sum 1000, yet the accumulator
stays 0, because the source uses `lastGoodTimestamp === 0` as the "no
previous good frame" sentinel and a good frame at timestamp exactly 0
re-triggers it. -/
theorem calibration_accumulator_counterexample :
    (processCalibration initCalibState
        [(⟨some 1, some 2, true⟩, 0), (⟨some 1, some 2, true⟩, 1000)]).goodTimeAccumulated = 0 ∧
    deltaSum (goodTimes
        [((⟨some 1, some 2, true⟩ : CalibFrame), (0 : ℚ)),
          (⟨some 1, some 2, true⟩, 1000)]) = 1000 := by
  constructor
  · norm_num [processCalibration, handleCalibrationFrame, initCalibState,
      CALIBRATION_DURATION_MS]
  · norm_num [goodTimes, goodFrame, deltaSum]

/-- C4 amended.  When a good frame pushes the accumulator to the 5000 ms
threshold the baseline is finalized as the means of all recorded samples,
the phase becomes tracking and the sampler state is cleared; feeding good
frames at t0, t0+1000, ..., t0+5000 for any positive t0 finalizes a
baseline equal to the means of the fed values. -/
theorem calibration_finalize_amended :
    (∀ (s : CalibState) (hip sh t : ℚ), s.phase = Phase.calibrating →
      s.lastGoodTimestamp ≠ 0 →
      s.goodTimeAccumulated + (t - s.lastGoodTimestamp) ≥ CALIBRATION_DURATION_MS →
      handleCalibrationFrame s ⟨some hip, some sh, true⟩ t =
        { phase := Phase.tracking, goodTimeAccumulated := 0, lastGoodTimestamp := 0,
          samplesMidHipY := [], samplesMidShoulderY := [],
          baseline := some { hipY := mean (s.samplesMidHipY ++ [hip]),
                              torsoY := mean (s.samplesMidShoulderY ++ [sh]) } }) ∧
    (∀ (t0 a0 a1 a2 a3 a4 a5 b0 b1 b2 b3 b4 b5 : ℚ), 0 < t0 →
      processCalibration initCalibState
        [(⟨some a0, some b0, true⟩, t0), (⟨some a1, some b1, true⟩, t0 + 1000),
          (⟨some a2, some b2, true⟩, t0 + 2000), (⟨some a3, some b3, true⟩, t0 + 3000),
          (⟨some a4, some b4, true⟩, t0 + 4000), (⟨some a5, some b5, true⟩, t0 + 5000)] =
        { phase := Phase.tracking, goodTimeAccumulated := 0, lastGoodTimestamp := 0,
          samplesMidHipY := [], samplesMidShoulderY := [],
          baseline := some { hipY := mean [a0, a1, a2, a3, a4, a5],
                              torsoY := mean [b0, b1, b2, b3, b4, b5] } }) := by
  have hfin : ∀ (s : CalibState) (hip sh t : ℚ), s.phase = Phase.calibrating →
      s.lastGoodTimestamp ≠ 0 →
      s.goodTimeAccumulated + (t - s.lastGoodTimestamp) ≥ CALIBRATION_DURATION_MS →
      handleCalibrationFrame s ⟨some hip, some sh, true⟩ t =
        { phase := Phase.tracking, goodTimeAccumulated := 0, lastGoodTimestamp := 0,
          samplesMidHipY := [], samplesMidShoulderY := [],
          baseline := some { hipY := mean (s.samplesMidHipY ++ [hip]),
                              torsoY := mean (s.samplesMidShoulderY ++ [sh]) } } := by
    intro s hip sh t hphase hsent hthr
    simp [handleCalibrationFrame, hphase, hsent, hthr]
  refine ⟨hfin, ?_⟩
  intro t0 a0 a1 a2 a3 a4 a5 b0 b1 b2 b3 b4 b5 ht
  have hne0 : t0 ≠ 0 := ht.ne'
  have hne1 : t0 + 1000 ≠ 0 := by intro hc; linarith
  have hne2 : t0 + 2000 ≠ 0 := by intro hc; linarith
  have hne3 : t0 + 3000 ≠ 0 := by intro hc; linarith
  have hne4 : t0 + 4000 ≠ 0 := by intro hc; linarith
  have e1 : handleCalibrationFrame initCalibState ⟨some a0, some b0, true⟩ t0 =
      ⟨Phase.calibrating, 0, t0, [a0], [b0], none⟩ := by
    norm_num [handleCalibrationFrame, initCalibState, CALIBRATION_DURATION_MS]
  have e2 : handleCalibrationFrame ⟨Phase.calibrating, 0, t0, [a0], [b0], none⟩
      ⟨some a1, some b1, true⟩ (t0 + 1000) =
      ⟨Phase.calibrating, 1000, t0 + 1000, [a0, a1], [b0, b1], none⟩ := by
    norm_num [handleCalibrationFrame, CALIBRATION_DURATION_MS, hne0]
  have e3 : handleCalibrationFrame ⟨Phase.calibrating, 1000, t0 + 1000, [a0, a1], [b0, b1], none⟩
      ⟨some a2, some b2, true⟩ (t0 + 2000) =
      ⟨Phase.calibrating, 2000, t0 + 2000, [a0, a1, a2], [b0, b1, b2], none⟩ := by
    norm_num [handleCalibrationFrame, CALIBRATION_DURATION_MS, hne1]
  have e4 : handleCalibrationFrame ⟨Phase.calibrating, 2000, t0 + 2000, [a0, a1, a2], [b0, b1, b2], none⟩
      ⟨some a3, some b3, true⟩ (t0 + 3000) =
      ⟨Phase.calibrating, 3000, t0 + 3000, [a0, a1, a2, a3], [b0, b1, b2, b3], none⟩ := by
    norm_num [handleCalibrationFrame, CALIBRATION_DURATION_MS, hne2]
  have e5 : handleCalibrationFrame ⟨Phase.calibrating, 3000, t0 + 3000, [a0, a1, a2, a3], [b0, b1, b2, b3], none⟩
      ⟨some a4, some b4, true⟩ (t0 + 4000) =
      ⟨Phase.calibrating, 4000, t0 + 4000, [a0, a1, a2, a3, a4], [b0, b1, b2, b3, b4], none⟩ := by
    norm_num [handleCalibrationFrame, CALIBRATION_DURATION_MS, hne3]
  have e6 : handleCalibrationFrame
      ⟨Phase.calibrating, 4000, t0 + 4000, [a0, a1, a2, a3, a4], [b0, b1, b2, b3, b4], none⟩
      ⟨some a5, some b5, true⟩ (t0 + 5000) =
      { phase := Phase.tracking, goodTimeAccumulated := 0, lastGoodTimestamp := 0,
        samplesMidHipY := [], samplesMidShoulderY := [],
        baseline := some { hipY := mean [a0, a1, a2, a3, a4, a5],
                            torsoY := mean [b0, b1, b2, b3, b4, b5] } } := by
    have := hfin ⟨Phase.calibrating, 4000, t0 + 4000, [a0, a1, a2, a3, a4], [b0, b1, b2, b3, b4], none⟩
      a5 b5 (t0 + 5000) rfl hne4 (by simp [CALIBRATION_DURATION_MS])
    simpa using this
  simp only [processCalibration, List.foldl_cons, List.foldl_nil]
  rw [e1, e2, e3, e4, e5, e6]

/-- Counterexample to C4 as stated: at timestamps 0, 1000, ..., 5000 the
first delta is swallowed by the timestamp-0 sentinel, the accumulator only
reaches 4000 ms, and no baseline is finalized. -/
theorem calibration_finalize_counterexample :
    (processCalibration initCalibState
        [(⟨some 1, some 2, true⟩, 0), (⟨some 1, some 2, true⟩, 1000),
          (⟨some 1, some 2, true⟩, 2000), (⟨some 1, some 2, true⟩, 3000),
          (⟨some 1, some 2, true⟩, 4000), (⟨some 1, some 2, true⟩, 5000)]).phase =
      Phase.calibrating ∧
    (processCalibration initCalibState
        [(⟨some 1, some 2, true⟩, 0), (⟨some 1, some 2, true⟩, 1000),
          (⟨some 1, some 2, true⟩, 2000), (⟨some 1, some 2, true⟩, 3000),
          (⟨some 1, some 2, true⟩, 4000), (⟨some 1, some 2, true⟩, 5000)]).baseline = none ∧
    (processCalibration initCalibState
        [(⟨some 1, some 2, true⟩, 0), (⟨some 1, some 2, true⟩, 1000),
          (⟨some 1, some 2, true⟩, 2000), (⟨some 1, some 2, true⟩, 3000),
          (⟨some 1, some 2, true⟩, 4000), (⟨some 1, some 2, true⟩, 5000)]).goodTimeAccumulated =
      4000 := by
  refine ⟨?_, ?_, ?_⟩ <;>
    norm_num [processCalibration, handleCalibrationFrame, initCalibState,
      CALIBRATION_DURATION_MS]

/-- Witness for C4 amended at t0 = 1000 with concrete sample values. -/
theorem calibration_finalize_witness :
    (0 : ℚ) < 1000 ∧
    processCalibration initCalibState
        [(⟨some 10, some 20, true⟩, 1000), (⟨some 11, some 21, true⟩, 2000),
          (⟨some 12, some 22, true⟩, 3000), (⟨some 13, some 23, true⟩, 4000),
          (⟨some 14, some 24, true⟩, 5000), (⟨some 15, some 25, true⟩, 6000)] =
      { phase := Phase.tracking, goodTimeAccumulated := 0, lastGoodTimestamp := 0,
        samplesMidHipY := [], samplesMidShoulderY := [],
        baseline := some { hipY := mean [10, 11, 12, 13, 14, 15],
                            torsoY := mean [20, 21, 22, 23, 24, 25] } } := by
  refine ⟨by norm_num, ?_⟩
  have := calibration_finalize_amended.2 1000 10 11 12 13 14 15 20 21 22 23 24 25 (by norm_num)
  norm_num at this
  convert this using 2
